import Mathlib

/-
Verification of the monkeyhub Wordle game.

The backend (convex wordle module) exposes a checkGuess action that validates a
submitted guess against the daily solution, computes per-letter feedback with a
two-pass algorithm, and persists the updated game state.  The client keyboard
derives a per-letter "known absent" status from the guess history.

Strings are modelled as lists of characters; the database rows and the external
puzzle fetch are modelled as explicit state threaded through checkGuess.

Two fidelity points of the source are modelled explicitly:

1. The per-letter solution count is computed in the source as
   (solution.match(new RegExp(letter, "g")) || []).length, with letter taken
   from the guess.  Building the RegExp throws a SyntaxError for characters
   that are not a wellformed single-character pattern, and the constructible
   metacharacters match other than literally.  The evaluator is therefore
   fallible, returning an error when pass 2 reaches such a character.

2. The game-state read and write use different keys.  checkGuess resolves the
   current state through getGameStateInternal with userId = identity.subject,
   the Clerk identifier from the JWT, while saveGameStateInternal looks up and
   writes the record keyed by user._id, the convex document id of the row in
   the users table (the schema stores the Clerk id in the separate externalId
   field, so the two keys are never equal).  The model therefore carries two
   records: the one under the subject key, read by the guards, and the one
   under the user id key, written by the save and also read back by the
   client-facing getGameState query.
-/

set_option autoImplicit false

namespace Monkeyhub

/-- Feedback classification for one letter position, the three-valued union
type used throughout the wordle module. -/
inductive Feedback where
  | correct
  | present
  | absent
deriving DecidableEq

/-- The error raised by the javascript runtime when pass 2 of checkGuess
builds new RegExp(letter) from a character that is not a wellformed pattern. -/
inductive JsError where
  | regexSyntaxError
deriving DecidableEq

/-- Characters for which new RegExp(letter) throws a SyntaxError: an
unterminated or unmatched group or class, a quantifier with nothing to
repeat, or a trailing backslash.  A lone closing bracket or brace is a
wellformed literal pattern and is not included. -/
def regexSyntaxErrorChar (c : Char) : Bool :=
  decide (c = '(' ∨ c = ')' ∨ c = '[' ∨ c = '*' ∨ c = '+' ∨ c = '?' ∨ c = '\\')

/-- Value of (solution.match(new RegExp(letter, "g")) || []).length for a
letter whose single-character pattern constructs: the dot matches every
character that is not a line terminator, the anchors match once, the empty
alternation matches at every boundary, and every other character matches
itself literally. -/
def regexMatchCount (s : List Char) (c : Char) : Nat :=
  if c = '.' then
    (s.filter fun x =>
      decide (¬(x = '\n' ∨ x = '\r' ∨ x = '\u2028' ∨ x = '\u2029'))).length
  else if c = '^' then 1
  else if c = '$' then 1
  else if c = '|' then s.length + 1
  else s.count c

/-- Characters whose single-character pattern constructs and matches
literally, so that the regex occurrence count is the literal occurrence
count; every alphanumeric character qualifies. -/
def regexLiteralChar (c : Char) : Bool :=
  decide (¬(c = '(' ∨ c = ')' ∨ c = '[' ∨ c = '*' ∨ c = '+' ∨ c = '?' ∨ c = '\\'
    ∨ c = '.' ∨ c = '^' ∨ c = '$' ∨ c = '|'))

/-- Pass 1 of the evaluator in checkGuess: position i is marked correct exactly
when guessLetters[i] equals solutionLetters[i]. -/
def pass1 (g s : List Char) (i : Nat) : Bool :=
  decide (g.getD i default = s.getD i default)

/-- The correctCount computation in checkGuess: positions where the solution
holds the letter and the guess holds the same letter at that position. -/
def correctCount (g s : List Char) (L : Char) : Nat :=
  (s.zip g).countP fun q => decide (q.1 = L ∧ q.2 = L)

/-- The alreadyMarkedPresent computation in checkGuess: occurrences of the
letter at positions before the current one already marked present.  The list
done holds the feedback already computed for the earlier positions. -/
def alreadyMarkedPresent (g : List Char) (done : List Feedback) (L : Char) : Nat :=
  ((g.take done.length).zip done).countP fun q =>
    decide (q.1 = L ∧ q.2 = Feedback.present)

/-- One iteration of the second pass of checkGuess at position done.length:
keep a correct mark from pass 1; otherwise the source first builds
new RegExp(letter) for the solution count, which throws for a regex-invalid
letter, and then marks present when the solution contains the letter and
correctCount plus alreadyMarkedPresent is below that count, absent
otherwise. -/
def pass2Step (g s : List Char) (done : List Feedback) : Except JsError Feedback :=
  if pass1 g s done.length then Except.ok Feedback.correct
  else if regexSyntaxErrorChar (g.getD done.length default) then
    Except.error JsError.regexSyntaxError
  else if g.getD done.length default ∈ s ∧
      correctCount g s (g.getD done.length default)
          + alreadyMarkedPresent g done (g.getD done.length default)
        < regexMatchCount s (g.getD done.length default) then
    Except.ok Feedback.present
  else
    Except.ok Feedback.absent

/-- The second pass loop of checkGuess: n remaining iterations, done holding
the feedback entries already finalized; a thrown SyntaxError aborts the
loop. -/
def pass2 (g s : List Char) (done : List Feedback) : Nat → Except JsError (List Feedback)
  | 0 => Except.ok done
  | n + 1 =>
    match pass2Step g s done with
    | Except.error e => Except.error e
    | Except.ok fb => pass2 g s (done ++ [fb]) n

/-- The feedback computation of checkGuess: five loop iterations starting from
an empty feedback array; the result is the final array, or the SyntaxError
thrown while evaluating a regex-invalid guess character. -/
def checkGuessFeedback (g s : List Char) : Except JsError (List Feedback) :=
  pass2 g s [] 5

/-- Proof device: one iteration of the second pass with the per-letter
solution count abstracted into cnt.  With cnt the regex match count this is
the value computed by a non-throwing step; with cnt the literal occurrence
count it is the step of the spec algorithm. -/
def pass2StepCnt (cnt : Char → Nat) (g s : List Char) (done : List Feedback) : Feedback :=
  if pass1 g s done.length then Feedback.correct
  else
    if g.getD done.length default ∈ s ∧
        correctCount g s (g.getD done.length default)
            + alreadyMarkedPresent g done (g.getD done.length default)
          < cnt (g.getD done.length default) then
      Feedback.present
    else
      Feedback.absent

/-- Proof device: the second pass loop with the solution count abstracted. -/
def pass2Cnt (cnt : Char → Nat) (g s : List Char) (done : List Feedback) :
    Nat → List Feedback
  | 0 => done
  | n + 1 => pass2Cnt cnt g s (done ++ [pass2StepCnt cnt g s done]) n

/-- Proof device: the full evaluation with the solution count abstracted. -/
def feedbackCnt (cnt : Char → Nat) (g s : List Char) : List Feedback :=
  pass2Cnt cnt g s [] 5

/-- Spec 4.1: solutionCount of a letter, the total occurrences of the letter in
the solution. -/
def specSolutionCount (s : List Char) (L : Char) : Nat := s.count L

/-- Spec 4.1: correctCount of a letter, the occurrences of the letter marked
correct by pass 1, counted by position over the five letter positions. -/
def specCorrectCount (g s : List Char) (L : Char) : Nat :=
  (List.range 5).countP fun j =>
    decide (g.getD j default = L ∧ s.getD j default = L)

/-- Spec 4.1: alreadyPresentCount of a letter at position i, the occurrences of
the letter at positions before i already marked present in the final feedback. -/
def specAlreadyPresentCount (g : List Char) (F : List Feedback) (i : Nat) (L : Char) : Nat :=
  (List.range i).countP fun j =>
    decide (g.getD j default = L ∧ F.getD j Feedback.absent = Feedback.present)

/-- Spec 4.1: the condition under which a non-correct position i is marked
present, stated over the final feedback list F with the literal solution
count of the spec. -/
def specPresentCond (g s : List Char) (F : List Feedback) (i : Nat) : Prop :=
  g.getD i default ∈ s ∧
    specCorrectCount g s (g.getD i default)
        + specAlreadyPresentCount g F i (g.getD i default)
      < specSolutionCount s (g.getD i default)

/-- The present condition with the solution count abstracted into cnt. -/
def presentCondCnt (cnt : Char → Nat) (g s : List Char) (F : List Feedback) (i : Nat) : Prop :=
  g.getD i default ∈ s ∧
    specCorrectCount g s (g.getD i default)
        + specAlreadyPresentCount g F i (g.getD i default)
      < cnt (g.getD i default)

instance specPresentCondDecidable (g s : List Char) (F : List Feedback) (i : Nat) :
    Decidable (specPresentCond g s F i) := by
  unfold specPresentCond
  infer_instance

instance presentCondCntDecidable (cnt : Char → Nat) (g s : List Char)
    (F : List Feedback) (i : Nat) : Decidable (presentCondCnt cnt g s F i) := by
  unfold presentCondCnt
  infer_instance

/-- One stored guess, a word plus its feedback, as in the game state rows and
in the value returned to the client. -/
structure GuessRecord where
  word : List Char
  feedback : List Feedback
deriving DecidableEq

/-- Stored game state for one key and date: the ordered guesses and the game
over flag. -/
structure GameState where
  guesses : List GuessRecord
  isGameOver : Bool
deriving DecidableEq

/-- The errors thrown by the checkGuess action, in the order the code can
raise them; regexSyntaxError is the SyntaxError escaping from pass 2 of the
evaluation. -/
inductive CheckError where
  | notAuthenticated
  | fetchFailed
  | invalidGuessLength
  | maxGuessesReached
  | gameAlreadyOver
  | regexSyntaxError
deriving DecidableEq

/-- The value returned by checkGuess on success. -/
structure CheckResult where
  feedback : List Feedback
  isCorrect : Bool
  isGameOver : Bool
deriving DecidableEq

/-- The environment of one checkGuess call for a fixed user and date: whether
the caller is authenticated, the stored puzzle solution for the date if any,
the solution returned by the external fetch (none modelling a non-success
response), the two game state records, and the raw guess argument.
subjectState is the record keyed by identity.subject and date, the one read
by getGameStateInternal for validation; userState is the record keyed by
user._id and date, the one saveGameStateInternal looks up and writes and the
client-facing getGameState returns.  In every run of the deployed program
subjectState is none, because every save writes under user._id and the Clerk
id of identity.subject lives in the separate externalId column. -/
structure CheckInput where
  authenticated : Bool
  storedPuzzle : Option (List Char)
  fetchResult : Option (List Char)
  subjectState : Option GameState
  userState : Option GameState
  rawGuess : List Char

/-- The outcome of one checkGuess call: the returned value or thrown error,
the stored puzzle, and the two game state records after the call. -/
structure CheckOutcome where
  result : Except CheckError CheckResult
  puzzleStore : Option (List Char)
  subjectState : Option GameState
  userState : Option GameState

/-- The toLowerCase normalization applied to the guess and the solution,
modelled per code point.  The javascript method can map some exotic code
points to several units and so change the length; the claims below are
settled on domains where the per-code-point mapping agrees with it. -/
def toLowerWord (w : List Char) : List Char := w.map Char.toLower

/-- The toUpperCase normalization applied to the stored guess word, modelled
per code point. -/
def toUpperWord (w : List Char) : List Char := w.map Char.toUpper

/-- The guesses of an optional game state; an absent record holds no guesses,
mirroring the currentState?.guesses || [] read in checkGuess. -/
def stateGuesses : Option GameState → List GuessRecord
  | none => []
  | some st => st.guesses

/-- The guess count tested by the maximum guesses check: an absent record
counts as zero because the check requires currentState to exist. -/
def stateGuessCount (st : Option GameState) : Nat := (stateGuesses st).length

/-- The game over flag tested by the game already over check: false for an
absent record because the check requires currentState to exist. -/
def stateIsOver : Option GameState → Bool
  | none => false
  | some st => st.isGameOver

/-- The newGuess record built by checkGuess: the guess word stored uppercase
together with the computed feedback. -/
def newGuessRecord (inp : CheckInput) (fb : List Feedback) : GuessRecord :=
  { word := toUpperWord (toLowerWord inp.rawGuess)
    feedback := fb }

/-- The updatedGuesses sequence built by checkGuess: the guesses of the record
read for validation, the subject-keyed one, with the new guess appended. -/
def updatedGuesses (inp : CheckInput) (fb : List Feedback) : List GuessRecord :=
  stateGuesses inp.subjectState ++ [newGuessRecord inp fb]

/-- The isGameOver value computed by checkGuess: the guess equals the solution
or the updated guess count reached six. -/
def newIsGameOver (inp : CheckInput) (sol : List Char) (fb : List Feedback) : Bool :=
  decide (toLowerWord inp.rawGuess = toLowerWord sol)
    || decide (6 ≤ (updatedGuesses inp fb).length)

/-- The part of checkGuess that runs after the puzzle has been resolved to a
solution: the length check, the two validation checks against the
subject-keyed record, the feedback computation (whose SyntaxError escapes the
action), and the saveGameStateInternal upsert, which looks up and writes the
record keyed by user._id.  The argument pz is the content of the puzzle store
after resolution. -/
def checkGuessAfterPuzzle (inp : CheckInput) (sol : List Char)
    (pz : Option (List Char)) : CheckOutcome :=
  if (toLowerWord inp.rawGuess).length ≠ 5 then
    { result := Except.error CheckError.invalidGuessLength
      puzzleStore := pz
      subjectState := inp.subjectState
      userState := inp.userState }
  else if 6 ≤ stateGuessCount inp.subjectState then
    { result := Except.error CheckError.maxGuessesReached
      puzzleStore := pz
      subjectState := inp.subjectState
      userState := inp.userState }
  else if stateIsOver inp.subjectState then
    { result := Except.error CheckError.gameAlreadyOver
      puzzleStore := pz
      subjectState := inp.subjectState
      userState := inp.userState }
  else
    match checkGuessFeedback (toLowerWord inp.rawGuess) (toLowerWord sol) with
    | Except.error _ =>
      { result := Except.error CheckError.regexSyntaxError
        puzzleStore := pz
        subjectState := inp.subjectState
        userState := inp.userState }
    | Except.ok fb =>
      { result := Except.ok
          { feedback := fb
            isCorrect := decide (toLowerWord inp.rawGuess = toLowerWord sol)
            isGameOver := newIsGameOver inp sol fb }
        puzzleStore := pz
        subjectState := inp.subjectState
        userState := some
          { guesses := updatedGuesses inp fb
            isGameOver := newIsGameOver inp sol fb } }

/-- The checkGuess action: authentication check, puzzle resolution with a
store of the fetched puzzle on a miss, then the validated evaluation and save.
Resolution keeps an existing stored puzzle unchanged and inserts the fetched
solution when the store was empty. -/
def checkGuess (inp : CheckInput) : CheckOutcome :=
  if inp.authenticated = false then
    { result := Except.error CheckError.notAuthenticated
      puzzleStore := inp.storedPuzzle
      subjectState := inp.subjectState
      userState := inp.userState }
  else
    match inp.storedPuzzle with
    | some sol => checkGuessAfterPuzzle inp sol (some sol)
    | none =>
      match inp.fetchResult with
      | none =>
        { result := Except.error CheckError.fetchFailed
          puzzleStore := none
          subjectState := inp.subjectState
          userState := inp.userState }
      | some fetched => checkGuessAfterPuzzle inp fetched (some fetched)

/-- The inner scan of the client isLetterAbsent helper: whether any occurrence
of the uppercase letter u anywhere in the guess history is marked present or
correct. -/
def foundPresentOrCorrect (guesses : List GuessRecord) (u : Char) : Bool :=
  guesses.any fun og => (og.word.zip og.feedback).any fun p =>
    decide (p.1 = u) && (decide (p.2 = Feedback.present)
      || decide (p.2 = Feedback.correct))

/-- The client isLetterAbsent helper: scan the history for an occurrence of
the letter marked absent, and on finding one return true exactly when no
occurrence of the letter anywhere in the history is marked present or
correct. -/
def isLetterAbsent (guesses : List GuessRecord) (letter : Char) : Bool :=
  guesses.any fun gu => (gu.word.zip gu.feedback).any fun p =>
    decide (p.1 = letter.toUpper) && decide (p.2 = Feedback.absent)
      && !foundPresentOrCorrect guesses letter.toUpper

def wHello : List Char := "hello".toList

def wLight : List Char := "light".toList

def wCrane : List Char := "crane".toList

def wAb : List Char := "ab".toList

def wNight : List Char := "NIGHT".toList

def wLIGHT : List Char := "LIGHT".toList

def wDigits : List Char := "12345".toList

def wParens : List Char := "(((((".toList

/-- A stored record with six guesses and the game over, the shape a finished
lost game was meant to leave; used as the user-keyed record of a pair. -/
def gsSix : GameState :=
  { guesses := List.replicate 6
      { word := toUpperWord wCrane, feedback := List.replicate 5 Feedback.absent }
    isGameOver := true }

/-- A stored record of a game won on the first guess, exactly as checkGuess
itself persists it. -/
def gsWon : GameState :=
  { guesses := [{ word := toUpperWord wLight
                  feedback := List.replicate 5 Feedback.correct }]
    isGameOver := true }

/-- A stored record holding one prior unfinished guess. -/
def gsOne : GameState :=
  { guesses := [{ word := toUpperWord wCrane
                  feedback := List.replicate 5 Feedback.absent }]
    isGameOver := false }

/-- A pair whose user-keyed stored record holds six guesses; the subject-keyed
record is none, as it is in every run of the deployed program. -/
def inpSix : CheckInput :=
  { authenticated := true
    storedPuzzle := some wLight
    fetchResult := none
    subjectState := none
    userState := some gsSix
    rawGuess := wCrane }

/-- A pair whose user-keyed stored record is a won game; the subject-keyed
record is none, as it is in every run of the deployed program. -/
def inpWon : CheckInput :=
  { authenticated := true
    storedPuzzle := some wLight
    fetchResult := none
    subjectState := none
    userState := some gsWon
    rawGuess := wCrane }

/-- A pair whose user-keyed stored record holds two prior guesses. -/
def inpTwoStored : CheckInput :=
  { authenticated := true
    storedPuzzle := some wLight
    fetchResult := none
    subjectState := none
    userState := some { guesses := gsOne.guesses ++ gsOne.guesses, isGameOver := false }
    rawGuess := wCrane }

def inpShort : CheckInput :=
  { authenticated := true
    storedPuzzle := none
    fetchResult := some wLight
    subjectState := none
    userState := none
    rawGuess := wAb }

def inpNight : CheckInput :=
  { authenticated := true
    storedPuzzle := some wLight
    fetchResult := none
    subjectState := none
    userState := none
    rawGuess := wNight }

def inpLightGuess : CheckInput :=
  { authenticated := true
    storedPuzzle := some wLight
    fetchResult := none
    subjectState := none
    userState := none
    rawGuess := wLIGHT }

def inpDigits : CheckInput :=
  { authenticated := true
    storedPuzzle := some wLight
    fetchResult := none
    subjectState := none
    userState := none
    rawGuess := wDigits }

/-- A digit guess submitted while the user-keyed record already holds one
prior stored guess. -/
def inpDigitsPrior : CheckInput :=
  { authenticated := true
    storedPuzzle := some wLight
    fetchResult := none
    subjectState := none
    userState := some gsOne
    rawGuess := wDigits }

/-- A five character guess built from regex-invalid characters. -/
def inpParens : CheckInput :=
  { authenticated := true
    storedPuzzle := some wLight
    fetchResult := none
    subjectState := none
    userState := none
    rawGuess := wParens }

theorem pass2Cnt_length (cnt : Char → Nat) (g s : List Char) :
    ∀ (n : Nat) (done : List Feedback),
      (pass2Cnt cnt g s done n).length = done.length + n := by
  intro n
  induction n with
  | zero => intro done; simp [pass2Cnt]
  | succ n ih =>
    intro done
    rw [pass2Cnt, ih]
    simp
    omega

theorem pass2Cnt_eq_append (cnt : Char → Nat) (g s : List Char) :
    ∀ (n : Nat) (done : List Feedback), ∃ t, pass2Cnt cnt g s done n = done ++ t := by
  intro n
  induction n with
  | zero => intro done; exact ⟨[], by simp [pass2Cnt]⟩
  | succ n ih =>
    intro done
    obtain ⟨t, ht⟩ := ih (done ++ [pass2StepCnt cnt g s done])
    exact ⟨[pass2StepCnt cnt g s done] ++ t, by rw [pass2Cnt, ht, List.append_assoc]⟩

theorem getD_append_add {α : Type} :
    ∀ (l₁ l₂ : List α) (j : Nat) (d : α), (l₁ ++ l₂).getD (l₁.length + j) d = l₂.getD j d := by
  intro l₁
  induction l₁ with
  | nil => intro l₂ j d; simp
  | cons a t ih =>
    intro l₂ j d
    simp only [List.cons_append, List.length_cons]
    rw [Nat.succ_add, List.getD_cons_succ]
    exact ih l₂ j d

theorem take_append_self {α : Type} :
    ∀ (l₁ l₂ : List α), (l₁ ++ l₂).take l₁.length = l₁ := by
  intro l₁
  induction l₁ with
  | nil => intro l₂; simp
  | cons a t ih =>
    intro l₂
    simp only [List.cons_append, List.length_cons, List.take_succ_cons]
    rw [ih]

theorem pass2Cnt_getD (cnt : Char → Nat) (g s : List Char) :
    ∀ (n : Nat) (done : List Feedback) (k : Nat), k < n →
      (pass2Cnt cnt g s done n).getD (done.length + k) Feedback.absent
        = pass2StepCnt cnt g s ((pass2Cnt cnt g s done n).take (done.length + k)) := by
  intro n
  induction n with
  | zero => intro done k hk; omega
  | succ n ih =>
    intro done k hk
    rw [pass2Cnt]
    match k with
    | 0 =>
      obtain ⟨t, ht⟩ :=
        pass2Cnt_eq_append cnt g s n (done ++ [pass2StepCnt cnt g s done])
      rw [ht, List.append_assoc]
      have h1 := getD_append_add done ([pass2StepCnt cnt g s done] ++ t) 0 Feedback.absent
      have h2 := take_append_self done ([pass2StepCnt cnt g s done] ++ t)
      rw [Nat.add_zero] at h1
      rw [Nat.add_zero, h1, h2]
      rfl
    | k + 1 =>
      have harith : done.length + (k + 1)
          = (done ++ [pass2StepCnt cnt g s done]).length + k := by
        simp
        omega
      rw [harith]
      exact ih (done ++ [pass2StepCnt cnt g s done]) k (by omega)

theorem feedbackCnt_length (cnt : Char → Nat) (g s : List Char) :
    (feedbackCnt cnt g s).length = 5 := by
  rw [feedbackCnt, pass2Cnt_length]
  rfl

theorem feedbackCnt_getD (cnt : Char → Nat) (g s : List Char) (i : Nat) (hi : i < 5) :
    (feedbackCnt cnt g s).getD i Feedback.absent
      = pass2StepCnt cnt g s ((feedbackCnt cnt g s).take i) := by
  have h := pass2Cnt_getD cnt g s 5 [] i hi
  simpa [feedbackCnt] using h

theorem countP_zip_eq_range {α β : Type} :
    ∀ (l₁ : List α) (l₂ : List β) (p : α × β → Bool) (d₁ : α) (d₂ : β),
      (l₁.zip l₂).countP p
        = (List.range (min l₁.length l₂.length)).countP
            (fun j => p (l₁.getD j d₁, l₂.getD j d₂)) := by
  intro l₁
  induction l₁ with
  | nil => intro l₂ p d₁ d₂; simp
  | cons a t ih =>
    intro l₂ p d₁ d₂
    cases l₂ with
    | nil => simp
    | cons b t₂ =>
      simp only [List.zip_cons_cons, List.countP_cons, List.length_cons]
      rw [Nat.succ_min_succ, List.range_succ_eq_map, List.countP_cons, List.countP_map]
      have hcomp :
          ((fun j => p ((a :: t).getD j d₁, (b :: t₂).getD j d₂)) ∘ Nat.succ)
            = fun j => p (t.getD j d₁, t₂.getD j d₂) := by
        funext j
        simp
      rw [hcomp, ih t₂ p d₁ d₂]
      simp

theorem getD_take_of_lt {α : Type} :
    ∀ (l : List α) (n j : Nat) (d : α), j < n → (l.take n).getD j d = l.getD j d := by
  intro l
  induction l with
  | nil => intro n j d _; simp
  | cons a t ih =>
    intro n j d hj
    match n, j with
    | n + 1, 0 => simp
    | n + 1, j + 1 =>
      simp only [List.take_succ_cons, List.getD_cons_succ]
      exact ih n j d (by omega)

theorem correctCount_eq_spec (g s : List Char) (hg : g.length = 5) (hs : s.length = 5)
    (L : Char) : correctCount g s L = specCorrectCount g s L := by
  rw [correctCount, countP_zip_eq_range s g _ default default, hs, hg, specCorrectCount]
  simp only [min_self]
  apply List.countP_congr
  intro j hj
  simp only [decide_eq_true_eq]
  exact and_comm

theorem alreadyMarkedPresent_take_eq_spec (g : List Char) (F : List Feedback)
    (i : Nat) (hg : i ≤ g.length) (hF : i ≤ F.length) (L : Char) :
    alreadyMarkedPresent g (F.take i) L = specAlreadyPresentCount g F i L := by
  have hlen : (F.take i).length = i := by rw [List.length_take]; omega
  rw [alreadyMarkedPresent, hlen,
    countP_zip_eq_range (g.take i) (F.take i) _ default Feedback.absent]
  have hmin : min (g.take i).length (F.take i).length = i := by
    rw [List.length_take, List.length_take]; omega
  rw [hmin, specAlreadyPresentCount]
  apply List.countP_congr
  intro j hj
  have hji : j < i := List.mem_range.mp hj
  simp only [decide_eq_true_eq]
  rw [getD_take_of_lt g i j default hji, getD_take_of_lt F i j Feedback.absent hji]

/-- Fixed point characterization of the count-abstracted evaluation: position
i of the computed feedback is correct exactly on a letter match, and
otherwise present or absent according to the present condition evaluated on
the final feedback itself. -/
theorem feedbackCnt_spec (cnt : Char → Nat) (g s : List Char)
    (hg : g.length = 5) (hs : s.length = 5) (i : Nat) (hi : i < 5) :
    (feedbackCnt cnt g s).getD i Feedback.absent
      = if g.getD i default = s.getD i default then Feedback.correct
        else if presentCondCnt cnt g s (feedbackCnt cnt g s) i then Feedback.present
        else Feedback.absent := by
  rw [feedbackCnt_getD cnt g s i hi, pass2StepCnt]
  have hlen : ((feedbackCnt cnt g s).take i).length = i := by
    rw [List.length_take, feedbackCnt_length]; omega
  rw [hlen, pass1,
    correctCount_eq_spec g s hg hs,
    alreadyMarkedPresent_take_eq_spec g (feedbackCnt cnt g s) i
      (by omega) (by rw [feedbackCnt_length]; omega)]
  simp only [presentCondCnt, decide_eq_true_eq]

theorem feedbackCnt_correct_iff (cnt : Char → Nat) (g s : List Char)
    (hg : g.length = 5) (hs : s.length = 5) (i : Nat) (hi : i < 5) :
    (feedbackCnt cnt g s).getD i Feedback.absent = Feedback.correct
      ↔ g.getD i default = s.getD i default := by
  rw [feedbackCnt_spec cnt g s hg hs i hi]
  by_cases h : g.getD i default = s.getD i default
  · rw [if_pos h]
    exact ⟨fun _ => h, fun _ => rfl⟩
  · rw [if_neg h]
    constructor
    · intro hcontra
      by_cases hp : presentCondCnt cnt g s (feedbackCnt cnt g s) i
      · rw [if_pos hp] at hcontra
        cases hcontra
      · rw [if_neg hp] at hcontra
        cases hcontra
    · intro hcontra
      exact absurd hcontra h

/-- The content of claim C1, proved for the count-abstracted evaluation. -/
theorem feedbackCnt_matches (cnt : Char → Nat) (g s : List Char)
    (hg : g.length = 5) (hs : s.length = 5) (i : Nat) (hi : i < 5) :
    ((feedbackCnt cnt g s).getD i Feedback.absent = Feedback.correct
        ↔ g.getD i default = s.getD i default)
    ∧ (g.getD i default ≠ s.getD i default →
        (((feedbackCnt cnt g s).getD i Feedback.absent = Feedback.present
            ↔ presentCondCnt cnt g s (feedbackCnt cnt g s) i)
          ∧ ((feedbackCnt cnt g s).getD i Feedback.absent = Feedback.absent
            ↔ ¬ presentCondCnt cnt g s (feedbackCnt cnt g s) i))) := by
  constructor
  · exact feedbackCnt_correct_iff cnt g s hg hs i hi
  · intro hne
    have hc := feedbackCnt_spec cnt g s hg hs i hi
    rw [if_neg hne] at hc
    rw [hc]
    by_cases hp : presentCondCnt cnt g s (feedbackCnt cnt g s) i
    · rw [if_pos hp]
      constructor
      · exact ⟨fun _ => hp, fun _ => rfl⟩
      · constructor
        · intro habs
          cases habs
        · intro hnp
          exact absurd hp hnp
    · rw [if_neg hp]
      constructor
      · constructor
        · intro habs
          cases habs
        · intro hyes
          exact absurd hyes hp
      · exact ⟨fun _ => hp, fun _ => rfl⟩

theorem countP_eq_range {α : Type} (l : List α) (p : α → Bool) (d : α) :
    l.countP p = (List.range l.length).countP fun i => p (l.getD i d) := by
  induction l with
  | nil => simp
  | cons a t ih =>
    simp only [List.countP_cons, List.length_cons]
    rw [List.range_succ_eq_map, List.countP_cons, List.countP_map]
    have hcomp : ((fun i => p ((a :: t).getD i d)) ∘ Nat.succ) = fun i => p (t.getD i d) := by
      funext i
      simp
    rw [hcomp, ih]
    simp

theorem feedbackCnt_not_present_at_second (cnt : Char → Nat) (g s : List Char)
    (hg : g.length = 5) (hs : s.length = 5) (L : Char) (p q : Nat)
    (hpq : p < q) (hq : q < 5) (hcnt : cnt L = 1)
    (hgp : g.getD p default = L) (hgq : g.getD q default = L)
    (hfp : (feedbackCnt cnt g s).getD p Feedback.absent ≠ Feedback.correct)
    (hfq : (feedbackCnt cnt g s).getD q Feedback.absent ≠ Feedback.correct) :
    (feedbackCnt cnt g s).getD q Feedback.absent ≠ Feedback.present := by
  intro hpres
  have hp5 : p < 5 := by omega
  have hnq : g.getD q default ≠ s.getD q default := fun h =>
    hfq ((feedbackCnt_correct_iff cnt g s hg hs q hq).mpr h)
  have hnp : g.getD p default ≠ s.getD p default := fun h =>
    hfp ((feedbackCnt_correct_iff cnt g s hg hs p hp5).mpr h)
  have hspec_q := feedbackCnt_spec cnt g s hg hs q hq
  rw [if_neg hnq] at hspec_q
  by_cases hc : presentCondCnt cnt g s (feedbackCnt cnt g s) q
  · obtain ⟨hmem, hlt⟩ := hc
    rw [hgq] at hmem hlt
    rw [hcnt] at hlt
    have hscc : specCorrectCount g s L = 0 := by omega
    have hsapq : specAlreadyPresentCount g (feedbackCnt cnt g s) q L = 0 := by omega
    rw [specAlreadyPresentCount] at hsapq
    have hall := List.countP_eq_zero.mp hsapq
    have hatp := hall p (List.mem_range.mpr hpq)
    simp only [decide_eq_true_eq, not_and] at hatp
    have hfp_not_present :
        (feedbackCnt cnt g s).getD p Feedback.absent ≠ Feedback.present :=
      hatp hgp
    have hsap_p : specAlreadyPresentCount g (feedbackCnt cnt g s) p L = 0 := by
      rw [specAlreadyPresentCount]
      apply List.countP_eq_zero.mpr
      intro j hj
      have hjp : j < p := List.mem_range.mp hj
      exact hall j (List.mem_range.mpr (by omega))
    have hcp : presentCondCnt cnt g s (feedbackCnt cnt g s) p := by
      rw [presentCondCnt, hgp, hcnt]
      exact ⟨hmem, by omega⟩
    have hspec_p := feedbackCnt_spec cnt g s hg hs p hp5
    rw [if_neg hnp, if_pos hcp] at hspec_p
    exact hfp_not_present hspec_p
  · rw [if_neg hc] at hspec_q
    rw [hspec_q] at hpres
    cases hpres

theorem getD_mem_of_lt {α : Type} :
    ∀ (l : List α) (i : Nat) (d : α), i < l.length → l.getD i d ∈ l := by
  intro l
  induction l with
  | nil => intro i d h; simp at h
  | cons a t ih =>
    intro i d h
    match i with
    | 0 => simp
    | i + 1 =>
      simp only [List.getD_cons_succ]
      exact List.mem_cons_of_mem a
        (ih i d (by simp only [List.length_cons] at h; omega))

theorem regexLiteral_props (s : List Char) (c : Char)
    (h : regexLiteralChar c = true) :
    regexSyntaxErrorChar c = false ∧ regexMatchCount s c = s.count c := by
  rw [regexLiteralChar, decide_eq_true_eq] at h
  simp only [not_or] at h
  obtain ⟨h1, h2, h3, h4, h5, h6, h7, h8, h9, h10, h11⟩ := h
  constructor
  · rw [regexSyntaxErrorChar]
    exact decide_eq_false (by tauto)
  · rw [regexMatchCount, if_neg h8, if_neg h9, if_neg h10, if_neg h11]

theorem pass2Step_literal (g s : List Char) (done : List Feedback)
    (h : regexLiteralChar (g.getD done.length default) = true) :
    pass2Step g s done = Except.ok (pass2StepCnt (fun c => s.count c) g s done) := by
  obtain ⟨hse, hmc⟩ := regexLiteral_props s (g.getD done.length default) h
  rw [pass2Step, pass2StepCnt]
  by_cases h1 : pass1 g s done.length = true
  · rw [if_pos h1, if_pos h1]
  · rw [if_neg h1, if_neg h1]
    have hnse : ¬(regexSyntaxErrorChar (g.getD done.length default) = true) := by
      rw [hse]
      exact Bool.false_ne_true
    rw [if_neg hnse, hmc]
    by_cases h2 : g.getD done.length default ∈ s ∧
        correctCount g s (g.getD done.length default)
            + alreadyMarkedPresent g done (g.getD done.length default)
          < s.count (g.getD done.length default)
    · rw [if_pos h2, if_pos h2]
    · rw [if_neg h2, if_neg h2]

theorem pass2_literal (g s : List Char)
    (hlit : ∀ c ∈ g, regexLiteralChar c = true) :
    ∀ (n : Nat) (done : List Feedback), done.length + n ≤ g.length →
      pass2 g s done n = Except.ok (pass2Cnt (fun c => s.count c) g s done n) := by
  intro n
  induction n with
  | zero => intro done _; rw [pass2, pass2Cnt]
  | succ n ih =>
    intro done hb
    have hmem : g.getD done.length default ∈ g :=
      getD_mem_of_lt g done.length default (by omega)
    rw [pass2, pass2Cnt, pass2Step_literal g s done (hlit _ hmem)]
    exact ih (done ++ [pass2StepCnt (fun c => s.count c) g s done])
      (by simp only [List.length_append, List.length_cons, List.length_nil]; omega)

theorem checkGuessFeedback_literal (g s : List Char) (hg : g.length = 5)
    (hlit : ∀ c ∈ g, regexLiteralChar c = true) :
    checkGuessFeedback g s = Except.ok (feedbackCnt (fun c => s.count c) g s) := by
  rw [checkGuessFeedback, feedbackCnt]
  exact pass2_literal g s hlit 5 [] (by simp [hg])

theorem pass2Step_ok_eq (g s : List Char) (done : List Feedback) (fb : Feedback)
    (h : pass2Step g s done = Except.ok fb) :
    fb = pass2StepCnt (regexMatchCount s) g s done := by
  rw [pass2Step] at h
  rw [pass2StepCnt]
  by_cases h1 : pass1 g s done.length = true
  · rw [if_pos h1] at h
    rw [if_pos h1]
    simp at h
    exact h.symm
  · rw [if_neg h1] at h
    rw [if_neg h1]
    by_cases h2 : regexSyntaxErrorChar (g.getD done.length default) = true
    · rw [if_pos h2] at h
      cases h
    · rw [if_neg h2] at h
      by_cases h3 : g.getD done.length default ∈ s ∧
          correctCount g s (g.getD done.length default)
              + alreadyMarkedPresent g done (g.getD done.length default)
            < regexMatchCount s (g.getD done.length default)
      · rw [if_pos h3] at h
        rw [if_pos h3]
        simp at h
        exact h.symm
      · rw [if_neg h3] at h
        rw [if_neg h3]
        simp at h
        exact h.symm

theorem pass2_ok_eq (g s : List Char) :
    ∀ (n : Nat) (done : List Feedback) (F : List Feedback),
      pass2 g s done n = Except.ok F → F = pass2Cnt (regexMatchCount s) g s done n := by
  intro n
  induction n with
  | zero =>
    intro done F h
    rw [pass2] at h
    simp at h
    rw [pass2Cnt]
    exact h.symm
  | succ n ih =>
    intro done F h
    rw [pass2] at h
    rw [pass2Cnt]
    cases hstep : pass2Step g s done with
    | error e =>
      rw [hstep] at h
      simp at h
    | ok fb =>
      rw [hstep] at h
      have hfb := pass2Step_ok_eq g s done fb hstep
      rw [hfb] at h
      exact ih _ F h

theorem checkGuessFeedback_ok_eq (g s : List Char) (F : List Feedback)
    (h : checkGuessFeedback g s = Except.ok F) :
    F = feedbackCnt (regexMatchCount s) g s := by
  rw [checkGuessFeedback] at h
  rw [feedbackCnt]
  exact pass2_ok_eq g s 5 [] F h

theorem isAlpha_regexMatchCount (s : List Char) (L : Char) (h : L.isAlpha = true) :
    regexMatchCount s L = s.count L := by
  have h1 : L ≠ '.' := by rintro rfl; exact absurd h (by decide)
  have h2 : L ≠ '^' := by rintro rfl; exact absurd h (by decide)
  have h3 : L ≠ '$' := by rintro rfl; exact absurd h (by decide)
  have h4 : L ≠ '|' := by rintro rfl; exact absurd h (by decide)
  rw [regexMatchCount, if_neg h1, if_neg h2, if_neg h3, if_neg h4]

theorem specPresentCond_iff (g s : List Char) (F : List Feedback) (i : Nat) :
    specPresentCond g s F i ↔ presentCondCnt (fun c => s.count c) g s F i :=
  Iff.rfl

/-- Counterexample to C1: a guess of regex-invalid characters makes pass 2
throw a SyntaxError while building new RegExp(letter), so the evaluator
yields no marking at all where the spec algorithm would mark every
position. -/
theorem checkGuess_feedback_throws_on_regex_invalid :
    checkGuessFeedback wParens wLight = Except.error JsError.regexSyntaxError
    ∧ ¬∃ F, checkGuessFeedback wParens wLight = Except.ok F := by
  constructor
  · rfl
  · rintro ⟨F, hF⟩
    rw [show checkGuessFeedback wParens wLight
      = Except.error JsError.regexSyntaxError from rfl] at hF
    cases hF

/-- C1 amended: for every guess and solution of 5 characters normalized to
the same case, where every guess character is regex-literal (in particular
alphanumeric), the evaluator completes and implements the two pass reference
algorithm of the spec: pass 1 marks position i correct exactly when guess[i]
equals solution[i]; pass 2, scanning left to right over the non-correct
positions, marks position i present exactly when the solution contains the
letter L at i and correctCount(L) + alreadyPresentCount(L) <
solutionCount(L), and absent otherwise.  A guess containing a regex-invalid
character instead makes the evaluation throw. -/
theorem checkGuess_feedback_matches_spec (g s : List Char)
    (hg : g.length = 5) (hs : s.length = 5)
    (hlit : ∀ c ∈ g, regexLiteralChar c = true) (i : Nat) (hi : i < 5) :
    ∃ F, checkGuessFeedback g s = Except.ok F
      ∧ (F.getD i Feedback.absent = Feedback.correct
          ↔ g.getD i default = s.getD i default)
      ∧ (g.getD i default ≠ s.getD i default →
          ((F.getD i Feedback.absent = Feedback.present ↔ specPresentCond g s F i)
            ∧ (F.getD i Feedback.absent = Feedback.absent
              ↔ ¬ specPresentCond g s F i))) := by
  refine ⟨feedbackCnt (fun c => s.count c) g s,
    checkGuessFeedback_literal g s hg hlit, ?_, ?_⟩
  · exact (feedbackCnt_matches (fun c => s.count c) g s hg hs i hi).1
  · intro hne
    obtain ⟨hpres, habs⟩ :=
      (feedbackCnt_matches (fun c => s.count c) g s hg hs i hi).2 hne
    exact ⟨Iff.trans hpres (specPresentCond_iff g s _ i).symm,
      Iff.trans habs (not_congr (specPresentCond_iff g s _ i)).symm⟩

theorem checkGuess_feedback_matches_spec_witness :
    wHello.length = 5 ∧ wLight.length = 5
    ∧ (∀ c ∈ wHello, regexLiteralChar c = true) ∧ (0 : Nat) < 5
    ∧ (∃ F, checkGuessFeedback wHello wLight = Except.ok F
        ∧ (F.getD 0 Feedback.absent = Feedback.correct
            ↔ wHello.getD 0 default = wLight.getD 0 default)
        ∧ (wHello.getD 0 default ≠ wLight.getD 0 default →
            ((F.getD 0 Feedback.absent = Feedback.present
                ↔ specPresentCond wHello wLight F 0)
              ∧ (F.getD 0 Feedback.absent = Feedback.absent
                ↔ ¬ specPresentCond wHello wLight F 0)))) :=
  ⟨by decide, by decide, by decide, by decide,
    checkGuess_feedback_matches_spec wHello wLight (by decide) (by decide)
      (by decide) 0 (by decide)⟩

/-- Counterexample to C6: a guess of regex-invalid characters makes the
evaluation throw, yielding no feedback values at all instead of exactly
five. -/
theorem checkGuess_feedback_throws_yields_no_values :
    checkGuessFeedback wParens wCrane = Except.error JsError.regexSyntaxError
    ∧ ∀ F, checkGuessFeedback wParens wCrane ≠ Except.ok F := by
  constructor
  · rfl
  · intro F hF
    rw [show checkGuessFeedback wParens wCrane
      = Except.error JsError.regexSyntaxError from rfl] at hF
    cases hF

/-- C6 amended: for all guesses G and solutions S of length 5 where every
character of G is regex-literal, evaluating G against S completes and yields
exactly 5 feedback values, each one of correct, present or absent, and the
number of correct values equals the number of positions i with G[i] equal to
S[i]; a G containing a regex-invalid character makes the evaluation throw and
yield no values. -/
theorem checkGuess_feedback_five_values (g s : List Char)
    (hg : g.length = 5) (hs : s.length = 5)
    (hlit : ∀ c ∈ g, regexLiteralChar c = true) :
    ∃ F, checkGuessFeedback g s = Except.ok F
      ∧ F.length = 5
      ∧ (∀ f ∈ F, f = Feedback.correct ∨ f = Feedback.present ∨ f = Feedback.absent)
      ∧ F.countP (fun f => decide (f = Feedback.correct))
          = (List.range 5).countP
              (fun i => decide (g.getD i default = s.getD i default)) := by
  refine ⟨feedbackCnt (fun c => s.count c) g s,
    checkGuessFeedback_literal g s hg hlit,
    feedbackCnt_length (fun c => s.count c) g s, ?_, ?_⟩
  · intro f _
    cases f
    · exact Or.inl rfl
    · exact Or.inr (Or.inl rfl)
    · exact Or.inr (Or.inr rfl)
  · rw [countP_eq_range (feedbackCnt (fun c => s.count c) g s) _ Feedback.absent,
      feedbackCnt_length]
    apply List.countP_congr
    intro j hj
    have hj5 : j < 5 := List.mem_range.mp hj
    simp only [decide_eq_true_eq]
    exact feedbackCnt_correct_iff (fun c => s.count c) g s hg hs j hj5

theorem checkGuess_feedback_five_values_witness :
    wCrane.length = 5 ∧ wLight.length = 5
    ∧ (∀ c ∈ wCrane, regexLiteralChar c = true)
    ∧ (∃ F, checkGuessFeedback wCrane wLight = Except.ok F
        ∧ F.length = 5
        ∧ (∀ f ∈ F, f = Feedback.correct ∨ f = Feedback.present ∨ f = Feedback.absent)
        ∧ F.countP (fun f => decide (f = Feedback.correct))
            = (List.range 5).countP
                (fun i => decide (wCrane.getD i default = wLight.getD i default))) :=
  ⟨by decide, by decide, by decide,
    checkGuess_feedback_five_values wCrane wLight (by decide) (by decide) (by decide)⟩

/-- C7: if the solution has exactly one occurrence of the letter L and the
guess has two occurrences of L at positions p < q, neither marked correct in
a completed evaluation, then at most one of p and q is marked present, and if
exactly one is marked present it is p, the leftmost.  For a letter the regex
occurrence count agrees with the literal one, and a thrown evaluation marks
nothing. -/
theorem checkGuess_duplicate_letter_leftmost (g s : List Char)
    (hg : g.length = 5) (hs : s.length = 5) (L : Char) (hL : L.isAlpha = true)
    (p q : Nat) (hpq : p < q) (hq : q < 5) (hcount : s.count L = 1)
    (hgp : g.getD p default = L) (hgq : g.getD q default = L)
    (F : List Feedback) (hfb : checkGuessFeedback g s = Except.ok F)
    (hfp : F.getD p Feedback.absent ≠ Feedback.correct)
    (hfq : F.getD q Feedback.absent ≠ Feedback.correct) :
    (¬(F.getD p Feedback.absent = Feedback.present
        ∧ F.getD q Feedback.absent = Feedback.present))
    ∧ ((F.getD p Feedback.absent = Feedback.present
        ∨ F.getD q Feedback.absent = Feedback.present) →
      F.getD p Feedback.absent = Feedback.present) := by
  have hFe := checkGuessFeedback_ok_eq g s F hfb
  subst hFe
  have hcnt : regexMatchCount s L = 1 := by
    rw [isAlpha_regexMatchCount s L hL]
    exact hcount
  have hqnp := feedbackCnt_not_present_at_second (regexMatchCount s) g s hg hs L p q
    hpq hq hcnt hgp hgq hfp hfq
  constructor
  · intro hboth
    exact hqnp hboth.2
  · intro hor
    cases hor with
    | inl h => exact h
    | inr h => exact absurd h hqnp

theorem checkGuess_duplicate_letter_leftmost_witness :
    wHello.length = 5 ∧ wLight.length = 5 ∧ ('l').isAlpha = true
    ∧ (2 : Nat) < 3 ∧ (3 : Nat) < 5
    ∧ wLight.count 'l' = 1
    ∧ wHello.getD 2 default = 'l' ∧ wHello.getD 3 default = 'l'
    ∧ checkGuessFeedback wHello wLight = Except.ok
        [Feedback.present, Feedback.absent, Feedback.present,
          Feedback.absent, Feedback.absent]
    ∧ [Feedback.present, Feedback.absent, Feedback.present,
        Feedback.absent, Feedback.absent].getD 2 Feedback.absent ≠ Feedback.correct
    ∧ [Feedback.present, Feedback.absent, Feedback.present,
        Feedback.absent, Feedback.absent].getD 3 Feedback.absent ≠ Feedback.correct
    ∧ ((¬([Feedback.present, Feedback.absent, Feedback.present,
            Feedback.absent, Feedback.absent].getD 2 Feedback.absent = Feedback.present
          ∧ [Feedback.present, Feedback.absent, Feedback.present,
              Feedback.absent, Feedback.absent].getD 3 Feedback.absent = Feedback.present))
        ∧ (([Feedback.present, Feedback.absent, Feedback.present,
              Feedback.absent, Feedback.absent].getD 2 Feedback.absent = Feedback.present
            ∨ [Feedback.present, Feedback.absent, Feedback.present,
                Feedback.absent, Feedback.absent].getD 3 Feedback.absent = Feedback.present) →
          [Feedback.present, Feedback.absent, Feedback.present,
            Feedback.absent, Feedback.absent].getD 2 Feedback.absent = Feedback.present)) :=
  ⟨by decide, by decide, by decide, by decide, by decide, by decide, by decide,
    by decide, rfl, by decide, by decide,
    checkGuess_duplicate_letter_leftmost wHello wLight (by decide) (by decide)
      'l' (by decide) 2 3 (by decide) (by decide) (by decide) (by decide) (by decide)
      [Feedback.present, Feedback.absent, Feedback.present,
        Feedback.absent, Feedback.absent] rfl (by decide) (by decide)⟩

theorem checkGuess_eq_afterPuzzle (inp : CheckInput)
    (hauth : inp.authenticated = true)
    (hpuzzle : inp.storedPuzzle ≠ none ∨ inp.fetchResult ≠ none) :
    ∃ sol pz, checkGuess inp = checkGuessAfterPuzzle inp sol pz := by
  rw [checkGuess, if_neg (by simp [hauth])]
  cases hsp : inp.storedPuzzle with
  | some sol => exact ⟨sol, some sol, rfl⟩
  | none =>
    cases hfr : inp.fetchResult with
    | none =>
      rcases hpuzzle with h | h
      · exact absurd hsp h
      · exact absurd hfr h
    | some fetched => exact ⟨fetched, some fetched, rfl⟩

theorem toLowerWord_length (w : List Char) : (toLowerWord w).length = w.length := by
  rw [toLowerWord, List.length_map]

theorem checkGuess_max_rejected_internal (inp : CheckInput)
    (hauth : inp.authenticated = true)
    (hpuzzle : inp.storedPuzzle ≠ none ∨ inp.fetchResult ≠ none)
    (hlen : inp.rawGuess.length = 5)
    (hcount : 6 ≤ stateGuessCount inp.subjectState) :
    (checkGuess inp).result = Except.error CheckError.maxGuessesReached
    ∧ (checkGuess inp).userState = inp.userState
    ∧ (checkGuess inp).subjectState = inp.subjectState := by
  obtain ⟨sol, pz, heq⟩ := checkGuess_eq_afterPuzzle inp hauth hpuzzle
  have hlen5 : (toLowerWord inp.rawGuess).length = 5 := by
    rw [toLowerWord_length]
    exact hlen
  rw [heq, checkGuessAfterPuzzle, if_neg (by omega), if_pos hcount]
  exact ⟨rfl, rfl, rfl⟩

theorem checkGuess_over_rejected_internal (inp : CheckInput)
    (hauth : inp.authenticated = true)
    (hpuzzle : inp.storedPuzzle ≠ none ∨ inp.fetchResult ≠ none)
    (hlen : inp.rawGuess.length = 5)
    (hcount : stateGuessCount inp.subjectState < 6)
    (hover : stateIsOver inp.subjectState = true) :
    (checkGuess inp).result = Except.error CheckError.gameAlreadyOver
    ∧ (checkGuess inp).userState = inp.userState
    ∧ (checkGuess inp).subjectState = inp.subjectState := by
  obtain ⟨sol, pz, heq⟩ := checkGuess_eq_afterPuzzle inp hauth hpuzzle
  have hlen5 : (toLowerWord inp.rawGuess).length = 5 := by
    rw [toLowerWord_length]
    exact hlen
  rw [heq, checkGuessAfterPuzzle, if_neg (by omega), if_neg (by omega), if_pos hover]
  exact ⟨rfl, rfl, rfl⟩

theorem afterPuzzle_puzzleStore (inp : CheckInput) (sol : List Char)
    (pz : Option (List Char)) :
    (checkGuessAfterPuzzle inp sol pz).puzzleStore = pz := by
  rw [checkGuessAfterPuzzle]
  split_ifs
  · rfl
  · rfl
  · rfl
  · cases checkGuessFeedback (toLowerWord inp.rawGuess) (toLowerWord sol) <;> rfl

theorem afterPuzzle_error_keeps_states (inp : CheckInput) (sol : List Char)
    (pz : Option (List Char)) (e : CheckError)
    (h : (checkGuessAfterPuzzle inp sol pz).result = Except.error e) :
    (checkGuessAfterPuzzle inp sol pz).userState = inp.userState
    ∧ (checkGuessAfterPuzzle inp sol pz).subjectState = inp.subjectState := by
  rw [checkGuessAfterPuzzle] at h ⊢
  split_ifs at h ⊢ with h1 h2 h3
  · exact ⟨rfl, rfl⟩
  · exact ⟨rfl, rfl⟩
  · exact ⟨rfl, rfl⟩
  · cases heval : checkGuessFeedback (toLowerWord inp.rawGuess) (toLowerWord sol) with
    | error e2 => exact ⟨rfl, rfl⟩
    | ok fb =>
      rw [heval] at h
      simp at h

theorem checkGuess_error_keeps_states (inp : CheckInput) (e : CheckError)
    (h : (checkGuess inp).result = Except.error e) :
    (checkGuess inp).userState = inp.userState
    ∧ (checkGuess inp).subjectState = inp.subjectState := by
  rw [checkGuess] at h ⊢
  by_cases hauth : inp.authenticated = false
  · rw [if_pos hauth]
    exact ⟨rfl, rfl⟩
  · rw [if_neg hauth] at h ⊢
    cases hsp : inp.storedPuzzle with
    | some sol =>
      rw [hsp] at h
      exact afterPuzzle_error_keeps_states inp sol (some sol) e h
    | none =>
      cases hfr : inp.fetchResult with
      | none => exact ⟨rfl, rfl⟩
      | some fetched =>
        rw [hsp, hfr] at h
        exact afterPuzzle_error_keeps_states inp fetched (some fetched) e h

theorem afterPuzzle_success (inp : CheckInput) (sol : List Char)
    (pz : Option (List Char)) (fb : List Feedback)
    (hlen : (toLowerWord inp.rawGuess).length = 5)
    (hcount : stateGuessCount inp.subjectState < 6)
    (hover : stateIsOver inp.subjectState = false)
    (heval : checkGuessFeedback (toLowerWord inp.rawGuess) (toLowerWord sol)
      = Except.ok fb) :
    checkGuessAfterPuzzle inp sol pz =
      { result := Except.ok
          { feedback := fb
            isCorrect := decide (toLowerWord inp.rawGuess = toLowerWord sol)
            isGameOver := newIsGameOver inp sol fb }
        puzzleStore := pz
        subjectState := inp.subjectState
        userState := some
          { guesses := updatedGuesses inp fb
            isGameOver := newIsGameOver inp sol fb } } := by
  rw [checkGuessAfterPuzzle, if_neg (by omega), if_neg (by omega),
    if_neg (by simp [hover]), heval]

/-- C2 as found in the code: the monotonicity the spec demands is violated.
With a won game stored under the user id key, a further submission is
accepted, because the validation read targets the always-empty subject key,
and the save patches the stored record back to isGameOver false; with two
guesses stored, the save shrinks the stored sequence to one. -/
theorem submit_after_win_flips_gameOver :
    stateIsOver inpWon.userState = true
    ∧ (∃ r, (checkGuess inpWon).result = Except.ok r)
    ∧ stateIsOver (checkGuess inpWon).userState = false
    ∧ stateGuessCount inpTwoStored.userState = 2
    ∧ (∃ r, (checkGuess inpTwoStored).result = Except.ok r)
    ∧ stateGuessCount (checkGuess inpTwoStored).userState = 1 :=
  ⟨rfl, ⟨_, rfl⟩, rfl, rfl, ⟨_, rfl⟩, rfl⟩

/-- C3 as found in the code: with six guesses stored under the user id key,
a further submission is not rejected with the maximum guesses error; it is
accepted, evaluated, and the save replaces the stored sequence with the
single new guess, because the validation read targets the always-empty
subject key. -/
theorem submit_with_six_stored_guesses_accepted :
    stateGuessCount inpSix.userState = 6
    ∧ (∃ r, (checkGuess inpSix).result = Except.ok r)
    ∧ (checkGuess inpSix).result ≠ Except.error CheckError.maxGuessesReached
    ∧ stateGuessCount (checkGuess inpSix).userState = 1
    ∧ (checkGuess inpSix).userState ≠ inpSix.userState := by
  refine ⟨rfl, ⟨_, rfl⟩, ?_, rfl, ?_⟩
  · intro h
    obtain ⟨r, hr⟩ : ∃ r, (checkGuess inpSix).result = Except.ok r := ⟨_, rfl⟩
    rw [hr] at h
    cases h
  · intro h
    exact absurd (congrArg stateGuessCount h) (by decide)

/-- C4 as found in the code: with a stored game over state under the user id
key, a further submission is not rejected with the game already over error;
it is accepted and the stored record overwritten, because the validation read
targets the always-empty subject key. -/
theorem submit_after_game_over_accepted :
    stateIsOver inpWon.userState = true
    ∧ (∃ r, (checkGuess inpWon).result = Except.ok r)
    ∧ (checkGuess inpWon).result ≠ Except.error CheckError.gameAlreadyOver
    ∧ (checkGuess inpWon).userState ≠ inpWon.userState := by
  refine ⟨rfl, ⟨_, rfl⟩, ?_, ?_⟩
  · intro h
    obtain ⟨r, hr⟩ : ∃ r, (checkGuess inpWon).result = Except.ok r := ⟨_, rfl⟩
    rw [hr] at h
    cases h
  · intro h
    exact absurd (congrArg stateIsOver h) (by decide)

/-- Counterexample to C5: an authenticated submission with a two character
guess and no stored puzzle is rejected for invalid length, yet the fetched
puzzle has been stored before the length check, so a length-rejected
submission does mutate the puzzle store. -/
theorem submit_invalid_length_stores_puzzle :
    (checkGuess inpShort).result = Except.error CheckError.invalidGuessLength
    ∧ (checkGuess inpShort).puzzleStore ≠ inpShort.storedPuzzle := by
  constructor
  · rfl
  · intro h
    rw [show (checkGuess inpShort).puzzleStore = some wLight from rfl] at h
    cases h

/-- C5 amended: checkGuess checks authentication first, then resolves the
puzzle (storing a fetched puzzle on a miss), then checks the guess length,
then the guess count and the game over flag of the record read for
validation; every rejection leaves both game state records unchanged, and a
stored puzzle is never overwritten, but a submission rejected for invalid
length may first insert the fetched puzzle into the puzzle store. -/
theorem submit_check_order_and_no_partial_state (inp : CheckInput) :
    (inp.authenticated = false →
        (checkGuess inp).result = Except.error CheckError.notAuthenticated)
    ∧ (inp.authenticated = true → inp.storedPuzzle = none → inp.fetchResult = none →
        (checkGuess inp).result = Except.error CheckError.fetchFailed)
    ∧ (inp.authenticated = true → (inp.storedPuzzle ≠ none ∨ inp.fetchResult ≠ none) →
        inp.rawGuess.length ≠ 5 →
        (checkGuess inp).result = Except.error CheckError.invalidGuessLength)
    ∧ (inp.authenticated = true → (inp.storedPuzzle ≠ none ∨ inp.fetchResult ≠ none) →
        inp.rawGuess.length = 5 → 6 ≤ stateGuessCount inp.subjectState →
        (checkGuess inp).result = Except.error CheckError.maxGuessesReached)
    ∧ (inp.authenticated = true → (inp.storedPuzzle ≠ none ∨ inp.fetchResult ≠ none) →
        inp.rawGuess.length = 5 → stateGuessCount inp.subjectState < 6 →
        stateIsOver inp.subjectState = true →
        (checkGuess inp).result = Except.error CheckError.gameAlreadyOver)
    ∧ (∀ e, (checkGuess inp).result = Except.error e →
        (checkGuess inp).userState = inp.userState
          ∧ (checkGuess inp).subjectState = inp.subjectState)
    ∧ (∀ sol, inp.storedPuzzle = some sol →
        (checkGuess inp).puzzleStore = some sol) := by
  refine ⟨?_, ?_, ?_, ?_, ?_, ?_, ?_⟩
  · intro hauth
    rw [checkGuess, if_pos hauth]
  · intro hauth hsp hfr
    rw [checkGuess, if_neg (by simp [hauth]), hsp, hfr]
  · intro hauth hpuzzle hlen
    obtain ⟨sol, pz, heq⟩ := checkGuess_eq_afterPuzzle inp hauth hpuzzle
    have hlen5 : (toLowerWord inp.rawGuess).length ≠ 5 := by
      rw [toLowerWord_length]
      exact hlen
    rw [heq, checkGuessAfterPuzzle, if_pos hlen5]
  · intro hauth hpuzzle hlen hcount
    exact (checkGuess_max_rejected_internal inp hauth hpuzzle hlen hcount).1
  · intro hauth hpuzzle hlen hcount hover
    exact (checkGuess_over_rejected_internal inp hauth hpuzzle hlen hcount hover).1
  · exact fun e h => checkGuess_error_keeps_states inp e h
  · intro sol hsp
    rw [checkGuess]
    by_cases hauth : inp.authenticated = false
    · rw [if_pos hauth]
      exact hsp
    · rw [if_neg hauth, hsp]
      exact afterPuzzle_puzzleStore inp sol (some sol)

theorem submit_check_order_and_no_partial_state_witness :
    (inpWon.authenticated = false →
        (checkGuess inpWon).result = Except.error CheckError.notAuthenticated)
    ∧ (inpWon.authenticated = true → inpWon.storedPuzzle = none →
        inpWon.fetchResult = none →
        (checkGuess inpWon).result = Except.error CheckError.fetchFailed)
    ∧ (inpWon.authenticated = true →
        (inpWon.storedPuzzle ≠ none ∨ inpWon.fetchResult ≠ none) →
        inpWon.rawGuess.length ≠ 5 →
        (checkGuess inpWon).result = Except.error CheckError.invalidGuessLength)
    ∧ (inpWon.authenticated = true →
        (inpWon.storedPuzzle ≠ none ∨ inpWon.fetchResult ≠ none) →
        inpWon.rawGuess.length = 5 → 6 ≤ stateGuessCount inpWon.subjectState →
        (checkGuess inpWon).result = Except.error CheckError.maxGuessesReached)
    ∧ (inpWon.authenticated = true →
        (inpWon.storedPuzzle ≠ none ∨ inpWon.fetchResult ≠ none) →
        inpWon.rawGuess.length = 5 → stateGuessCount inpWon.subjectState < 6 →
        stateIsOver inpWon.subjectState = true →
        (checkGuess inpWon).result = Except.error CheckError.gameAlreadyOver)
    ∧ (∀ e, (checkGuess inpWon).result = Except.error e →
        (checkGuess inpWon).userState = inpWon.userState
          ∧ (checkGuess inpWon).subjectState = inpWon.subjectState)
    ∧ (∀ sol, inpWon.storedPuzzle = some sol →
        (checkGuess inpWon).puzzleStore = some sol) :=
  submit_check_order_and_no_partial_state inpWon

/-- C8: guessing NIGHT against solution LIGHT yields feedback absent then four
times correct, and a first submission of LIGHT against LIGHT yields five
correct values, isCorrect true, and isGameOver true after that single guess. -/
theorem example_night_and_light :
    (checkGuess inpNight).result = Except.ok
      { feedback := [Feedback.absent, Feedback.correct, Feedback.correct,
          Feedback.correct, Feedback.correct]
        isCorrect := false
        isGameOver := false }
    ∧ (checkGuess inpLightGuess).result = Except.ok
      { feedback := [Feedback.correct, Feedback.correct, Feedback.correct,
          Feedback.correct, Feedback.correct]
        isCorrect := true
        isGameOver := true }
    ∧ (checkGuess inpLightGuess).userState = some
      { guesses := [{ word := wLIGHT
                      feedback := [Feedback.correct, Feedback.correct, Feedback.correct,
                        Feedback.correct, Feedback.correct] }]
        isGameOver := true } :=
  ⟨rfl, rfl, rfl⟩

/-- C9: the client keyboard shows a letter as known absent exactly when some
occurrence of the letter in the guess history is marked absent and no
occurrence of the letter anywhere in the history is marked present or
correct. -/
theorem keyboard_letter_absent_iff (guesses : List GuessRecord) (letter : Char) :
    isLetterAbsent guesses letter = true ↔
      ((∃ gu ∈ guesses, ∃ p ∈ gu.word.zip gu.feedback,
          p.1 = letter.toUpper ∧ p.2 = Feedback.absent)
        ∧ ¬(∃ gu ∈ guesses, ∃ p ∈ gu.word.zip gu.feedback,
            p.1 = letter.toUpper
              ∧ (p.2 = Feedback.present ∨ p.2 = Feedback.correct))) := by
  have hfound : foundPresentOrCorrect guesses letter.toUpper = true ↔
      (∃ gu ∈ guesses, ∃ p ∈ gu.word.zip gu.feedback,
        p.1 = letter.toUpper
          ∧ (p.2 = Feedback.present ∨ p.2 = Feedback.correct)) := by
    rw [foundPresentOrCorrect]
    simp [List.any_eq_true]
  rw [isLetterAbsent]
  simp only [List.any_eq_true, Bool.and_eq_true, Bool.not_eq_true',
    decide_eq_true_eq]
  constructor
  · rintro ⟨gu, hgu, p, hp, ⟨⟨h1, h2⟩, h3⟩⟩
    refine ⟨⟨gu, hgu, p, hp, h1, h2⟩, ?_⟩
    intro hexists
    rw [hfound.mpr hexists] at h3
    cases h3
  · rintro ⟨⟨gu, hgu, p, hp, h1, h2⟩, hnone⟩
    have h3 : foundPresentOrCorrect guesses letter.toUpper = false := by
      cases hfnd : foundPresentOrCorrect guesses letter.toUpper
      · rfl
      · exact absurd (hfound.mp hfnd) hnone
    exact ⟨gu, hgu, p, hp, ⟨⟨h1, h2⟩, h3⟩⟩

/-- Counterexample to C10: a five character guess of regex-invalid characters
is not accepted, the SyntaxError from pass 2 escapes instead; and with one
guess already stored under the user id key, a five digit submission is
accepted but leaves a single stored guess, replacing rather than extending
the stored sequence, because the append works on the always-empty
subject-keyed read. -/
theorem submit_five_chars_rejected_or_replaced :
    (toLowerWord inpParens.rawGuess).length = 5
    ∧ (checkGuess inpParens).result = Except.error CheckError.regexSyntaxError
    ∧ stateGuessCount inpDigitsPrior.userState = 1
    ∧ (∃ r, (checkGuess inpDigitsPrior).result = Except.ok r)
    ∧ stateGuessCount (checkGuess inpDigitsPrior).userState = 1 :=
  ⟨rfl, rfl, rfl, ⟨_, rfl⟩, rfl⟩

/-- C10 amended: checkGuess validates only the length of the lowercased
guess, not alphabetic content: an authenticated five character guess of
regex-literal characters, digits included, in a playable state per the
validation read, is evaluated and persisted with the word stored uppercased;
but the new guess is appended to the guesses of the subject-keyed record read
for validation, which is empty in the deployed program, so the save replaces
the previously stored sequence, and a guess containing a regex-invalid
character is rejected by the escaping SyntaxError instead. -/
theorem submit_accepts_five_regex_literal_characters (inp : CheckInput)
    (sol : List Char)
    (hauth : inp.authenticated = true)
    (hpz : inp.storedPuzzle = some sol)
    (hlen : (toLowerWord inp.rawGuess).length = 5)
    (hlit : ∀ c ∈ toLowerWord inp.rawGuess, regexLiteralChar c = true)
    (hcount : stateGuessCount inp.subjectState < 6)
    (hover : stateIsOver inp.subjectState = false) :
    ∃ fb r,
      checkGuessFeedback (toLowerWord inp.rawGuess) (toLowerWord sol) = Except.ok fb
      ∧ (checkGuess inp).result = Except.ok r
      ∧ r.feedback = fb
      ∧ (checkGuess inp).userState = some
          { guesses := stateGuesses inp.subjectState
              ++ [{ word := toUpperWord (toLowerWord inp.rawGuess)
                    feedback := fb }]
            isGameOver := r.isGameOver } := by
  have heval := checkGuessFeedback_literal (toLowerWord inp.rawGuess)
    (toLowerWord sol) hlen hlit
  have hstep : checkGuess inp = checkGuessAfterPuzzle inp sol (some sol) := by
    rw [checkGuess, if_neg (by simp [hauth]), hpz]
  rw [hstep, afterPuzzle_success inp sol (some sol) _ hlen hcount hover heval]
  exact ⟨_, _, heval, rfl, rfl, rfl⟩

theorem submit_accepts_five_regex_literal_characters_witness :
    inpDigits.authenticated = true ∧ inpDigits.storedPuzzle = some wLight
    ∧ (toLowerWord inpDigits.rawGuess).length = 5
    ∧ (∀ c ∈ toLowerWord inpDigits.rawGuess, regexLiteralChar c = true)
    ∧ stateGuessCount inpDigits.subjectState < 6
    ∧ stateIsOver inpDigits.subjectState = false
    ∧ (∃ fb r,
        checkGuessFeedback (toLowerWord inpDigits.rawGuess) (toLowerWord wLight)
          = Except.ok fb
        ∧ (checkGuess inpDigits).result = Except.ok r
        ∧ r.feedback = fb
        ∧ (checkGuess inpDigits).userState = some
            { guesses := stateGuesses inpDigits.subjectState
                ++ [{ word := toUpperWord (toLowerWord inpDigits.rawGuess)
                      feedback := fb }]
              isGameOver := r.isGameOver }) :=
  ⟨rfl, rfl, by decide, by decide, by decide, rfl,
    submit_accepts_five_regex_literal_characters inpDigits wLight rfl rfl
      (by decide) (by decide) (by decide) rfl⟩

end Monkeyhub
